import Mathlib

/-!
Verification of the retrying HTTP request execution layer and typed response
decoding of the rust-esplora-client repository, as a shallow embedding.

Conventions of the embedding:
* A transport is modelled as a function from the attempt index to the response
  received on that attempt; connection-level send failures (which exit the
  retry loops immediately through the question-mark operator in the source)
  are modelled where a claim needs them (the ureq and reqwest executors) and
  elided where every cited scenario is about received status codes.
* Durations and points in time are natural numbers of milliseconds.
* Machine-integer behavior is kept where it matters: the i32 status code of
  the blocking client is an Int, the u16 cast is modulo 65536, the u64
  multiplication inside compute_backoff wraps modulo 2 to the 64
  (release-profile Rust semantics), the u64 string parse is bounded.
* External collaborators (the bitcoin consensus codec, serde JSON, the
  httpdate parser, FromStr impls) are parameters of the embedded functions.
* Response bodies are modelled as strings (the endpoints under claim return
  text bodies); a panic in the source (unwrap, unimplemented) is modelled by
  an Option-valued result being none.
-/

namespace Esplora

/-- An HTTP response as the retry and decode layers see it: status code, body,
and the optional Retry-After header.  The blocking (minreq) client reports the
status as an i32, modelled as Int. -/
structure Resp where
  status : Int
  body : String
  retryAfter : Option String
deriving DecidableEq, Repr

/-- An HTTP response for the async (reqwest) client, whose StatusCode is a
u16 value. -/
structure AResp where
  status : Nat
  body : String
  retryAfter : Option String
deriving DecidableEq, Repr

/-- The error enum of src/lib.rs (the variants the embedded pipelines reach).
Minreq and Reqwest stand for errors wrapped from the respective HTTP crates,
including their JSON deserialization errors. -/
inductive Error where
  | Minreq
  | Reqwest
  | SerdeJson
  | HttpResponse (status : Nat) (message : String)
  | Parsing
  | StatusCode
  | BitcoinEncoding
  | HexToArray
  | HexToBytes
  | InvalidResponse
deriving DecidableEq, Repr

/-- RETRYABLE_ERROR_CODES from src/lib.rs. -/
def RETRYABLE_ERROR_CODES : List Nat := [429, 500, 503]

/-- BASE_BACKOFF_MILLIS from src/lib.rs (256 ms). -/
def BASE_BACKOFF_MILLIS : Nat := 256

/-- DEFAULT_MAX_RETRIES from src/lib.rs. -/
def DEFAULT_MAX_RETRIES : Nat := 6

/-- The Rust cast of an i32 status to u16 (truncation to the low 16 bits,
two's complement): for the values produced here this is the value modulo
65536. -/
def u16OfI32 (s : Int) : Nat := (s % 65536).toNat

/-- is_status_ok from src/blocking.rs: exact equality with 200. -/
def is_status_ok (status : Int) : Bool := status == 200

/-- is_status_not_found from src/blocking.rs. -/
def is_status_not_found (status : Int) : Bool := status == 404

/-- is_status_retryable from src/blocking.rs: membership of the status (cast
to u16) in RETRYABLE_ERROR_CODES. -/
def is_status_retryable (status : Int) : Bool :=
  RETRYABLE_ERROR_CODES.contains (u16OfI32 status)

/-- The u16::try_from(i32) conversion followed by the construction of
Error::HttpResponse with the body as message, as written inline at every
non-success branch of src/blocking.rs; a status outside the u16 range becomes
Error::StatusCode. -/
def http_response_error (resp : Resp) : Error :=
  if 0 ≤ resp.status ∧ resp.status < 65536 then
    .HttpResponse resp.status.toNat resp.body
  else
    .StatusCode

/-- The result of one run of a retry loop: the final response, the number of
transport attempts performed, and the sequence of sleeps in milliseconds. -/
structure RetryTrace where
  resp : Resp
  attempts : Nat
  sleeps : List Nat
deriving DecidableEq, Repr

/-- The result of one run of the async retry loop. -/
structure ARetryTrace where
  resp : AResp
  attempts : Nat
  sleeps : List Nat
deriving DecidableEq, Repr

namespace Blocking

/-- The loop body of BlockingClient::get_with_retry (src/blocking.rs).  The
loop variable attempts only grows while attempts < maxRetries, so the
recursion is driven by the fuel maxRetries - attempts; the entry point below
starts with fuel = maxRetries, and at fuel zero the guard attempts <
maxRetries is false, so returning the response there is exactly the source's
else arm. -/
def get_with_retry_loop (t : Nat → Resp) (maxRetries : Nat) :
    Nat → Nat → Nat → List Nat → RetryTrace
  | 0, attempts, _delay, sleeps => ⟨t attempts, attempts + 1, sleeps⟩
  | fuel + 1, attempts, delay, sleeps =>
    if attempts < maxRetries && is_status_retryable (t attempts).status then
      get_with_retry_loop t maxRetries fuel (attempts + 1) (delay * 2)
        (sleeps ++ [delay])
    else
      ⟨t attempts, attempts + 1, sleeps⟩

/-- BlockingClient::get_with_retry: start with attempts = 0 and delay =
BASE_BACKOFF_MILLIS; on a retryable status below the budget, sleep the current
delay, increment attempts and double the delay. -/
def get_with_retry (t : Nat → Resp) (maxRetries : Nat) : RetryTrace :=
  get_with_retry_loop t maxRetries maxRetries 0 BASE_BACKOFF_MILLIS []

end Blocking

namespace Async

/-- is_status_retryable from src/async.rs: the reqwest status is already a
u16. -/
def is_status_retryable (status : Nat) : Bool :=
  RETRYABLE_ERROR_CODES.contains status

/-- reqwest StatusCode::is_success: the 200..=299 range. -/
def is_success (status : Nat) : Bool := 200 ≤ status && status ≤ 299

/-- The loop body of AsyncClient::get_with_retry (src/async.rs); same
structure as the blocking loop (see Blocking.get_with_retry_loop for the fuel
discipline). -/
def get_with_retry_loop (t : Nat → AResp) (maxRetries : Nat) :
    Nat → Nat → Nat → List Nat → ARetryTrace
  | 0, attempts, _delay, sleeps => ⟨t attempts, attempts + 1, sleeps⟩
  | fuel + 1, attempts, delay, sleeps =>
    if attempts < maxRetries && is_status_retryable (t attempts).status then
      get_with_retry_loop t maxRetries fuel (attempts + 1) (delay * 2)
        (sleeps ++ [delay])
    else
      ⟨t attempts, attempts + 1, sleeps⟩

/-- AsyncClient::get_with_retry. -/
def get_with_retry (t : Nat → AResp) (maxRetries : Nat) : ARetryTrace :=
  get_with_retry_loop t maxRetries maxRetries 0 BASE_BACKOFF_MILLIS []

end Async

namespace Retryable

/-- SECOND from src/retryable.rs (1000 ms). -/
def SECOND : Nat := 1000

/-- BASE_BACKOFF_MS from src/retryable.rs (5000 ms). -/
def BASE_BACKOFF_MS : Nat := 5000

/-- DEFAULT_MAX_RETRIES from src/retryable.rs. -/
def DEFAULT_MAX_RETRIES : Nat := 5

/-- RETRY_TOO_MANY_REQUEST_ONLY from src/retryable.rs. -/
def RETRY_TOO_MANY_REQUEST_ONLY : List Nat := [429, 503]

/-- The Rust str::parse for u64: an optional leading plus sign, then at least
one ascii digit, value below 2 to the 64; anything else is a parse error. -/
def parseU64 (s : String) : Option Nat :=
  let chars := s.data
  let digits := if chars.head? = some '+' then chars.tail else chars
  if digits.isEmpty then none
  else if digits.all Char.isDigit then
    let n := digits.foldl (fun acc c => acc * 10 + (c.toNat - 48)) 0
    if n < 2 ^ 64 then some n else none
  else none

/-- compute_backoff from src/retryable.rs.  The httpdate parser and the clock
(the now function of the source) are injected: parseHttpDate gives the parsed
date as a timestamp in milliseconds when the header text is a valid HTTP-date.
If the date is not after now the backoff is zero, else the distance to the
date; otherwise a u64 seconds value is converted with from_millis(seconds *
SECOND), whose u64 multiplication wraps modulo 2 to the 64 in release Rust;
with no parse at all the previous backoff is doubled. -/
def compute_backoff (parseHttpDate : String → Option Nat) (now : Nat)
    (retry_after : Option String) (backoff : Nat) : Nat :=
  let duration := retry_after.bind (fun ra =>
    match parseHttpDate ra with
    | some date =>
      if date ≤ now then some 0
      else some (date - now)
    | none =>
      (parseU64 ra).map (fun seconds => (seconds * SECOND) % 2 ^ 64))
  match duration with
  | some d => d
  | none => backoff * 2

/-- One attempt of the ureq transport as SyncRetryable::exec_with_retry sees
it: ureq reports every 4xx/5xx response as Err(Status(code, response)), other
errors as Err(other), and the remaining responses as Ok. -/
inductive UreqResult where
  | status (code : Nat) (resp : Resp)
  | otherErr
  | ok (resp : Resp)

/-- A terminal outcome of the blocking exec_with_retry. -/
inductive SyncOutcome where
  | transportErr
  | ok (resp : Resp)
deriving DecidableEq

/-- The loop of the SyncRetryable impl for ureq requests (src/retryable.rs).
The source loop has no bound on the number of transport calls: in the
Err(Status(..)) arm it retries (recomputing the backoff, incrementing
retry_count and sleeping) when the code is retryable and the budget remains,
and otherwise falls through WITHOUT returning, so the loop re-sends the
request.  The fuel argument counts how many transport calls we are willing to
observe; none means no terminal outcome was produced within that many calls. -/
def sync_exec_loop (parseHttpDate : String → Option Nat) (now : Nat)
    (t : Nat → UreqResult) (retryable_error_codes : List Nat)
    (max_retries : Nat) :
    Nat → Nat → Nat → Nat → Option SyncOutcome
  | 0, _callIdx, _retryCount, _backoff => none
  | fuel + 1, callIdx, retryCount, backoff =>
    match t callIdx with
    | .status code resp =>
      if retryable_error_codes.contains code && retryCount < max_retries then
        sync_exec_loop parseHttpDate now t retryable_error_codes max_retries
          fuel (callIdx + 1) (retryCount + 1)
          (compute_backoff parseHttpDate now resp.retryAfter backoff)
      else
        sync_exec_loop parseHttpDate now t retryable_error_codes max_retries
          fuel (callIdx + 1) retryCount backoff
    | .otherErr => some .transportErr
    | .ok resp => some (.ok resp)

/-- One attempt of the reqwest transport as AsyncRetryable::exec_with_retry
sees it: a send error, or a response carrying its status. -/
inductive ReqwestAttempt where
  | err
  | ok (resp : AResp)

/-- A terminal outcome of the async exec_with_retry: a send error propagated
as Error::Reqwest, the error_for_status error for a 4xx/5xx final response, or
the final response itself. -/
inductive AsyncOutcome where
  | sendErr
  | statusErr (status : Nat)
  | ok (resp : AResp)
deriving DecidableEq, Repr

/-- reqwest Response::error_for_status: an error for the 400..=599 range,
otherwise the response. -/
def error_for_status (resp : AResp) : AsyncOutcome :=
  if 400 ≤ resp.status && resp.status ≤ 599 then .statusErr resp.status
  else .ok resp

/-- The trace of the async exec_with_retry: outcome, number of transport
sends, sleeps performed (ms). -/
structure AsyncExecTrace where
  outcome : AsyncOutcome
  attempts : Nat
  sleeps : List Nat
deriving DecidableEq, Repr

/-- The loop of the AsyncRetryable impl for reqwest (src/retryable.rs).  The
retry guard requires retry_count < max_retries, so the recursion is driven by
the fuel max_retries - retry_count; at fuel zero the guard is false and the
loop takes its terminal arm, exactly as in the source.  On retry the new
backoff is computed from the Retry-After header, retry_count is incremented,
and the NEW backoff is slept. -/
def async_exec_loop (parseHttpDate : String → Option Nat) (now : Nat)
    (t : Nat → ReqwestAttempt) (retryable_error_codes : List Nat)
    (max_retries : Nat) :
    Nat → Nat → Nat → Nat → List Nat → AsyncExecTrace
  | 0, callIdx, _retryCount, _backoff, sleeps =>
    match t callIdx with
    | .err => ⟨.sendErr, callIdx + 1, sleeps⟩
    | .ok resp => ⟨error_for_status resp, callIdx + 1, sleeps⟩
  | fuel + 1, callIdx, retryCount, backoff, sleeps =>
    match t callIdx with
    | .err => ⟨.sendErr, callIdx + 1, sleeps⟩
    | .ok resp =>
      if retryable_error_codes.contains resp.status
          && retryCount < max_retries then
        async_exec_loop parseHttpDate now t retryable_error_codes max_retries
          fuel (callIdx + 1) (retryCount + 1)
          (compute_backoff parseHttpDate now resp.retryAfter backoff)
          (sleeps ++ [compute_backoff parseHttpDate now resp.retryAfter backoff])
      else
        ⟨error_for_status resp, callIdx + 1, sleeps⟩

/-- AsyncRetryable::exec_with_retry: backoff starts at BASE_BACKOFF_MS,
retry_count at 0, and an absent max_retries defaults to DEFAULT_MAX_RETRIES. -/
def async_exec_with_retry (parseHttpDate : String → Option Nat) (now : Nat)
    (t : Nat → ReqwestAttempt) (retryable_error_codes : List Nat)
    (max_retries : Option Nat) : AsyncExecTrace :=
  let m := match max_retries with
    | some m => m
    | none => DEFAULT_MAX_RETRIES
  async_exec_loop parseHttpDate now t retryable_error_codes m m 0 0
    BASE_BACKOFF_MS []

/-- Reference sequence of delays prescribed by the backoff policy for a given
sequence of Retry-After headers: each delay is compute_backoff of the header
and the previous delay. -/
def backoff_scan (parseHttpDate : String → Option Nat) (now : Nat) :
    List (Option String) → Nat → List Nat
  | [], _ => []
  | h :: hs, d =>
    compute_backoff parseHttpDate now h d ::
      backoff_scan parseHttpDate now hs (compute_backoff parseHttpDate now h d)

end Retryable

/-- Vec::from_hex of the bitcoin hex crate (an external collaborator, modelled
concretely): the value of one ascii hex digit. -/
def hexDigit (c : Char) : Option Nat :=
  if '0' ≤ c ∧ c ≤ '9' then some (c.toNat - 48)
  else if 'a' ≤ c ∧ c ≤ 'f' then some (c.toNat - 87)
  else if 'A' ≤ c ∧ c ≤ 'F' then some (c.toNat - 55)
  else none

/-- Vec::from_hex: pairs of hex digits to bytes; odd length or a non-hex
character is a decode error. -/
def from_hex : List Char → Option (List Nat)
  | [] => some []
  | [_] => none
  | c1 :: c2 :: rest =>
    match hexDigit c1, hexDigit c2, from_hex rest with
    | some h, some l, some bytes => some ((h * 16 + l) :: bytes)
    | _, _, _ => none

namespace Blocking

/-- BlockingClient::get_opt_response (src/blocking.rs), as a function of the
final response of get_with_retry and of the consensus binary decoder binDec
(external collaborator); a binary decode failure is Error::BitcoinEncoding. -/
def get_opt_response (binDec : String → Option α) (resp : Resp) :
    Except Error (Option α) :=
  if is_status_not_found resp.status then .ok none
  else if !is_status_ok resp.status then .error (http_response_error resp)
  else
    match binDec resp.body with
    | some v => .ok (some v)
    | none => .error .BitcoinEncoding

/-- BlockingClient::get_response_json; a serde failure is wrapped by minreq
and surfaces as Error::Minreq. -/
def get_response_json (jsonDec : String → Option α) (resp : Resp) :
    Except Error α :=
  if !is_status_ok resp.status then .error (http_response_error resp)
  else
    match jsonDec resp.body with
    | some v => .ok v
    | none => .error .Minreq

/-- BlockingClient::get_opt_response_json. -/
def get_opt_response_json (jsonDec : String → Option α) (resp : Resp) :
    Except Error (Option α) :=
  if is_status_not_found resp.status then .ok none
  else if !is_status_ok resp.status then .error (http_response_error resp)
  else
    match jsonDec resp.body with
    | some v => .ok (some v)
    | none => .error .Minreq

/-- BlockingClient::get_response_hex.  The source runs
Vec::from_hex(hex_str).unwrap(), which panics on malformed hex: the panic is
modelled as none.  A consensus decode failure of the decoded bytes is
Error::BitcoinEncoding. -/
def get_response_hex (binDec : List Nat → Option α) (resp : Resp) :
    Option (Except Error α) :=
  if !is_status_ok resp.status then some (.error (http_response_error resp))
  else
    match from_hex resp.body.data with
    | none => none
    | some bytes =>
      match binDec bytes with
      | some v => some (.ok v)
      | none => some (.error .BitcoinEncoding)

/-- BlockingClient::get_opt_response_hex, with the same unwrap panic modelled
as none. -/
def get_opt_response_hex (binDec : List Nat → Option α) (resp : Resp) :
    Option (Except Error (Option α)) :=
  if is_status_not_found resp.status then some (.ok none)
  else if !is_status_ok resp.status then
    some (.error (http_response_error resp))
  else
    match from_hex resp.body.data with
    | none => none
    | some bytes =>
      match binDec bytes with
      | some v => some (.ok (some v))
      | none => some (.error .BitcoinEncoding)

/-- BlockingClient::get_blocks: decode the JSON list of block summaries, then
reject an empty list as Error::InvalidResponse. -/
def get_blocks (jsonDec : String → Option (List α)) (resp : Resp) :
    Except Error (List α) :=
  match get_response_json jsonDec resp with
  | .error e => .error e
  | .ok blocks => if blocks.isEmpty then .error .InvalidResponse else .ok blocks

end Blocking

namespace Async

/-- AsyncClient::get_response (src/async.rs): success is the reqwest
is_success RANGE check 200..=299; on non-success the status and body text form
Error::HttpResponse; on success the body is handed to the consensus binary
decoder. -/
def get_response (binDec : String → Option α) (resp : AResp) :
    Except Error α :=
  if !is_success resp.status then
    .error (.HttpResponse resp.status resp.body)
  else
    match binDec resp.body with
    | some v => .ok v
    | none => .error .BitcoinEncoding

/-- AsyncClient::get_opt_response: wraps get_response, turning an
Error::HttpResponse with status 404 into Ok(None) (the literal 404 pattern of
the source is rendered as an equality test). -/
def get_opt_response (binDec : String → Option α) (resp : AResp) :
    Except Error (Option α) :=
  match get_response binDec resp with
  | .ok res => .ok (some res)
  | .error (.HttpResponse status msg) =>
    if status = 404 then .ok none else .error (.HttpResponse status msg)
  | .error e => .error e

/-- AsyncClient::get_response_json; a serde failure surfaces as
Error::Reqwest. -/
def get_response_json (jsonDec : String → Option α) (resp : AResp) :
    Except Error α :=
  if !is_success resp.status then
    .error (.HttpResponse resp.status resp.body)
  else
    match jsonDec resp.body with
    | some v => .ok v
    | none => .error .Reqwest

/-- AsyncClient::get_opt_response_json. -/
def get_opt_response_json (jsonDec : String → Option α) (resp : AResp) :
    Except Error (Option α) :=
  match get_response_json jsonDec resp with
  | .ok res => .ok (some res)
  | .error (.HttpResponse status msg) =>
    if status = 404 then .ok none else .error (.HttpResponse status msg)
  | .error e => .error e

/-- AsyncClient::get_response_hex: here the hex decode failure is propagated
with the question-mark operator as Error::HexToBytes (no unwrap). -/
def get_response_hex (binDec : List Nat → Option α) (resp : AResp) :
    Except Error α :=
  if !is_success resp.status then
    .error (.HttpResponse resp.status resp.body)
  else
    match from_hex resp.body.data with
    | none => .error .HexToBytes
    | some bytes =>
      match binDec bytes with
      | some v => .ok v
      | none => .error .BitcoinEncoding

/-- AsyncClient::get_opt_response_hex. -/
def get_opt_response_hex (binDec : List Nat → Option α) (resp : AResp) :
    Except Error (Option α) :=
  match get_response_hex binDec resp with
  | .ok res => .ok (some res)
  | .error (.HttpResponse status msg) =>
    if status = 404 then .ok none else .error (.HttpResponse status msg)
  | .error e => .error e

/-- AsyncClient::get_blocks: just the JSON decode, with no emptiness check. -/
def get_blocks (jsonDec : String → Option (List α)) (resp : AResp) :
    Except Error (List α) :=
  get_response_json jsonDec resp

end Async

/-- The Response structure of src/api.rs (status_code is an i32). -/
structure ApiResponse where
  status_code : Int
  body : String
deriving DecidableEq, Repr

/-- Response::is_status_ok from src/api.rs: exact equality with 200. -/
def ApiResponse.is_status_ok (self : ApiResponse) : Bool :=
  self.status_code == 200

/-- The error branch shared by the deserialize functions of src/api.rs:
u16::try_from on the status, then Error::HttpResponse with the body text. -/
def ApiResponse.http_response_error (self : ApiResponse) : Error :=
  if 0 ≤ self.status_code ∧ self.status_code < 65536 then
    .HttpResponse self.status_code.toNat self.body
  else
    .StatusCode

/-- The BlocksApi endpoint enum of src/api.rs (block hashes rendered as
strings). -/
inductive BlocksApi where
  | BlockTxIdAtIndex (hash : String) (index : Nat)
  | BlockHeader (hash : String)
  | BlockStatus (hash : String)
  | BlockRaw (hash : String)
  | BlockTipHeight
  | BlockTipHash
  | BlockHash (height : Nat)
  | BlockSummaries (height : Option Nat)

/-- BlocksApi::deserialize_str from src/api.rs, with the FromStr collaborator
injected.  On the text endpoints the source runs
T::from_str(response.as_str()?).unwrap() (the unwrap carries a FIXME comment),
which panics when the body does not parse; the other endpoints hit
unimplemented.  Both panics are modelled as none. -/
def BlocksApi.deserialize_str (fromStr : String → Option α)
    (self : BlocksApi) (response : ApiResponse) :
    Option (Except Error α) :=
  if !response.is_status_ok then
    some (.error response.http_response_error)
  else
    match self with
    | .BlockTxIdAtIndex _ _ | .BlockTipHash | .BlockHash _ | .BlockTipHeight =>
      match fromStr response.body with
      | some v => some (.ok v)
      | none => none
    | _ => none

/-- One step of Rust Iterator::max_by_key comparing keys: keep the current
maximum, and on ties or a new maximum take the later element (the documented
behavior of max_by_key). -/
def max_by_key_step (acc : Option (Nat × α)) (kv : Nat × α) :
    Option (Nat × α) :=
  match acc with
  | none => some kv
  | some best => if best.1 ≤ kv.1 then some kv else some best

/-- Rust Iterator::max_by_key over a list of key-value pairs, comparing
keys. -/
def max_by_key (l : List (Nat × α)) : Option (Nat × α) :=
  l.foldl max_by_key_step none

/-- convert_fee_rate from src/lib.rs: filter the estimates map to the keys at
or below the target, take the entry with the maximal key, and return its value
cast to f32.  The estimates HashMap is modelled as a list of key-value pairs
with distinct keys, and the f64-to-f32 cast is the injected function cast. -/
def convert_fee_rate (cast : α → β) (target : Nat)
    (estimates : List (Nat × α)) : Option β :=
  (max_by_key (estimates.filter (fun kv => kv.1 ≤ target))).map
    (fun kv => cast kv.2)

/-- Modelled from the spec: the fee-rate fields of the package-submission DTOs
(SubmitPackageResult and its fee results, referenced by src/blocking.rs but
whose definition is not under src), decoded by converting BTC/kvB to sat/kwu,
multiplying by 25,000,000; modelled over exact rationals. -/
def convert_btc_per_kvb_to_sat_per_kwu (btcPerKvb : ℚ) : ℚ :=
  btcPerKvb * 25000000

/-- The blocking retry loop performs at most fuel + 1 further transport
attempts. -/
theorem blocking_loop_attempts_le (t : Nat → Resp) (m : Nat) :
    ∀ fuel a d s,
      (Blocking.get_with_retry_loop t m fuel a d s).attempts ≤ a + fuel + 1 := by
  intro fuel
  induction fuel with
  | zero =>
    intro a d s
    show a + 1 ≤ a + 0 + 1
    omega
  | succ fuel ih =>
    intro a d s
    simp only [Blocking.get_with_retry_loop]
    split
    · exact Nat.le_trans (ih (a + 1) (d * 2) (s ++ [d])) (by omega)
    · show a + 1 ≤ a + (fuel + 1) + 1
      omega

/-- The async retry loop performs at most fuel + 1 further transport
attempts. -/
theorem async_loop_attempts_le (t : Nat → AResp) (m : Nat) :
    ∀ fuel a d s,
      (Async.get_with_retry_loop t m fuel a d s).attempts ≤ a + fuel + 1 := by
  intro fuel
  induction fuel with
  | zero =>
    intro a d s
    show a + 1 ≤ a + 0 + 1
    omega
  | succ fuel ih =>
    intro a d s
    simp only [Async.get_with_retry_loop]
    split
    · exact Nat.le_trans (ih (a + 1) (d * 2) (s ++ [d])) (by omega)
    · show a + 1 ≤ a + (fuel + 1) + 1
      omega

/-- The async exec_with_retry loop performs at most fuel + 1 further
transport sends. -/
theorem async_exec_loop_attempts_le (pd : String → Option Nat) (now : Nat)
    (te : Nat → Retryable.ReqwestAttempt) (codes : List Nat) (m : Nat) :
    ∀ fuel c rc b s,
      (Retryable.async_exec_loop pd now te codes m fuel c rc b s).attempts
        ≤ c + fuel + 1 := by
  intro fuel
  induction fuel with
  | zero =>
    intro c rc b s
    simp only [Retryable.async_exec_loop]
    cases hte : te c <;> simp
  | succ fuel ih =>
    intro c rc b s
    simp only [Retryable.async_exec_loop]
    cases hte : te c with
    | err => simp
    | ok resp =>
      simp only
      split
      · exact Nat.le_trans (ih (c + 1) (rc + 1) _ _) (by omega)
      · simp

/-- Against a transport that always reports a 503 status error, the ureq
SyncRetryable loop never produces a terminal outcome, whatever the number of
transport calls observed: the Status arm of the source match falls through
without returning once the retry budget is spent. -/
theorem sync_exec_503_diverges (pd : String → Option Nat) (now : Nat) :
    ∀ fuel c rc b,
      Retryable.sync_exec_loop pd now (fun _ => .status 503 ⟨503, "", none⟩)
        Retryable.RETRY_TOO_MANY_REQUEST_ONLY 3 fuel c rc b = none := by
  intro fuel
  induction fuel with
  | zero => intro c rc b; rfl
  | succ fuel ih =>
    intro c rc b
    simp only [Retryable.sync_exec_loop]
    split
    · exact ih _ _ _
    · exact ih _ _ _

/-- C1: the get_with_retry executors and the async exec_with_retry perform at
most max_retries + 1 transport attempts and return one terminal outcome, and
against an always-503 transport with max_retries = 3 they make exactly 4
attempts and deliver the final 503; the blocking SyncRetryable exec_with_retry
however never produces a terminal outcome in that scenario (the code bug: its
Status arm falls through without returning), whatever the number of transport
calls observed. -/
theorem c1_retry_budget_and_outcomes :
    (∀ (t : Nat → Resp) (m : Nat),
      (Blocking.get_with_retry t m).attempts ≤ m + 1)
    ∧ (∀ (ta : Nat → AResp) (m : Nat),
      (Async.get_with_retry ta m).attempts ≤ m + 1)
    ∧ (∀ (pd : String → Option Nat) (now : Nat)
        (te : Nat → Retryable.ReqwestAttempt) (codes : List Nat) (m : Nat),
      (Retryable.async_exec_with_retry pd now te codes (some m)).attempts
        ≤ m + 1)
    ∧ Blocking.get_with_retry (fun _ => ⟨503, "", none⟩) 3
        = ⟨⟨503, "", none⟩, 4, [256, 512, 1024]⟩
    ∧ Retryable.async_exec_with_retry (fun _ => none) 0
        (fun _ => .ok ⟨503, "", none⟩) Retryable.RETRY_TOO_MANY_REQUEST_ONLY
        (some 3) = ⟨.statusErr 503, 4, [10000, 20000, 40000]⟩
    ∧ (∀ fuel c rc b,
        Retryable.sync_exec_loop (fun _ => none) 0
          (fun _ => .status 503 ⟨503, "", none⟩)
          Retryable.RETRY_TOO_MANY_REQUEST_ONLY 3 fuel c rc b = none) := by
  refine ⟨?_, ?_, ?_, rfl, rfl, sync_exec_503_diverges _ _⟩
  · intro t m
    have h := blocking_loop_attempts_le t m m 0 BASE_BACKOFF_MILLIS []
    simpa [Blocking.get_with_retry] using h
  · intro ta m
    have h := async_loop_attempts_le ta m m 0 BASE_BACKOFF_MILLIS []
    simpa [Async.get_with_retry] using h
  · intro pd now te codes m
    have h := async_exec_loop_attempts_le pd now te codes m m 0 0
      Retryable.BASE_BACKOFF_MS []
    simpa [Retryable.async_exec_with_retry] using h

/-- C6: if the first response's status is not retryable, the get_with_retry
executors make exactly one attempt and return that response with no sleep;
with max_retries = 0 they make exactly one attempt and no sleep regardless of
the status. -/
theorem c6_single_attempt (t : Nat → Resp) (ta : Nat → AResp) (m : Nat) :
    (is_status_retryable (t 0).status = false →
      Blocking.get_with_retry t m = ⟨t 0, 1, []⟩)
    ∧ Blocking.get_with_retry t 0 = ⟨t 0, 1, []⟩
    ∧ (Async.is_status_retryable (ta 0).status = false →
      Async.get_with_retry ta m = ⟨ta 0, 1, []⟩)
    ∧ Async.get_with_retry ta 0 = ⟨ta 0, 1, []⟩ := by
  refine ⟨?_, ?_, ?_, ?_⟩
  · intro h
    cases m with
    | zero => rfl
    | succ m =>
      simp [Blocking.get_with_retry, Blocking.get_with_retry_loop, h]
  · rfl
  · intro h
    cases m with
    | zero => rfl
    | succ m =>
      simp [Async.get_with_retry, Async.get_with_retry_loop, h]
  · rfl

/-- Witness for C6 at a transport answering 404 (not in the retryable set
429, 500, 503) and at max_retries 0. -/
theorem c6_single_attempt_witness :
    Blocking.get_with_retry (fun _ => ⟨404, "", none⟩) 5
      = ⟨⟨404, "", none⟩, 1, []⟩
    ∧ Async.get_with_retry (fun _ => ⟨404, "", none⟩) 5
      = ⟨⟨404, "", none⟩, 1, []⟩ := by
  have h := c6_single_attempt (fun _ => ⟨404, "", none⟩)
    (fun _ => ⟨404, "", none⟩) 5
  exact ⟨h.1 (by decide), h.2.2.1 (by decide)⟩

/-- The sleeps recorded by the blocking retry loop extend the accumulator by a
sequence of doublings of the entry delay, never consulting any Retry-After
header. -/
theorem blocking_loop_sleeps_geometric (t : Nat → Resp) (m : Nat) :
    ∀ fuel a d s, ∃ k,
      (Blocking.get_with_retry_loop t m fuel a d s).sleeps
        = s ++ (List.range k).map (fun i => d * 2 ^ i) := by
  intro fuel
  induction fuel with
  | zero =>
    intro a d s
    exact ⟨0, by simp [Blocking.get_with_retry_loop]⟩
  | succ fuel ih =>
    intro a d s
    simp only [Blocking.get_with_retry_loop]
    split
    · obtain ⟨k, hk⟩ := ih (a + 1) (d * 2) (s ++ [d])
      refine ⟨k + 1, ?_⟩
      rw [hk, List.append_assoc]
      congr 1
      have hfun : (fun i => d * 2 * 2 ^ i)
          = ((fun i => d * 2 ^ i) ∘ Nat.succ) := by
        funext i
        simp only [Function.comp, pow_succ]
        ring
      rw [List.range_succ_eq_map, List.map_cons, List.map_map, hfun]
      simp
    · exact ⟨0, by simp⟩

/-- The sleeps recorded by the async retry loop extend the accumulator by a
sequence of doublings of the entry delay, never consulting any Retry-After
header. -/
theorem async_loop_sleeps_geometric (t : Nat → AResp) (m : Nat) :
    ∀ fuel a d s, ∃ k,
      (Async.get_with_retry_loop t m fuel a d s).sleeps
        = s ++ (List.range k).map (fun i => d * 2 ^ i) := by
  intro fuel
  induction fuel with
  | zero =>
    intro a d s
    exact ⟨0, by simp [Async.get_with_retry_loop]⟩
  | succ fuel ih =>
    intro a d s
    simp only [Async.get_with_retry_loop]
    split
    · obtain ⟨k, hk⟩ := ih (a + 1) (d * 2) (s ++ [d])
      refine ⟨k + 1, ?_⟩
      rw [hk, List.append_assoc]
      congr 1
      have hfun : (fun i => d * 2 * 2 ^ i)
          = ((fun i => d * 2 ^ i) ∘ Nat.succ) := by
        funext i
        simp only [Function.comp, pow_succ]
        ring
      rw [List.range_succ_eq_map, List.map_cons, List.map_map, hfun]
      simp
    · exact ⟨0, by simp⟩

/-- Against a transport whose responses all carry a retryable status, the
sleeps of the async exec_with_retry loop are exactly the backoff-policy scan
of the received Retry-After headers. -/
theorem async_exec_loop_sleeps (pd : String → Option Nat) (now : Nat)
    (r : Nat → AResp) (codes : List Nat) (m : Nat)
    (hall : ∀ i, codes.contains (r i).status = true) :
    ∀ fuel c rc b s, rc + fuel ≤ m →
      (Retryable.async_exec_loop pd now (fun i => .ok (r i)) codes m
        fuel c rc b s).sleeps
        = s ++ Retryable.backoff_scan pd now
            ((List.range fuel).map (fun i => (r (c + i)).retryAfter)) b := by
  intro fuel
  induction fuel with
  | zero =>
    intro c rc b s _
    simp [Retryable.async_exec_loop, Retryable.backoff_scan]
  | succ fuel ih =>
    intro c rc b s hle
    simp only [Retryable.async_exec_loop]
    split
    · rw [ih (c + 1) (rc + 1) _ _ (by omega), List.append_assoc]
      congr 1
      have hfun : (fun i => (r (c + 1 + i)).retryAfter)
          = ((fun i => (r (c + i)).retryAfter) ∘ Nat.succ) := by
        funext i
        simp only [Function.comp]
        have harg : c + 1 + i = c + Nat.succ i := by omega
        rw [harg]
      rw [List.range_succ_eq_map, List.map_cons, List.map_map, hfun]
      simp [Retryable.backoff_scan]
    · rename_i hcond
      exfalso
      have hrc : rc < m := by omega
      have hmem : (r c).status ∈ codes := by simpa using hall c
      exact hcond (by simp [hrc, hmem])

/-- C2 counterexample: a retryable 503 response carrying a Retry-After header
of 3600 seconds makes BlockingClient::get_with_retry sleep 256 ms (the plain
doubling schedule), not the 3600000 ms that the backoff policy
compute_backoff prescribes for that header: the get_with_retry executors do
not read Retry-After. -/
theorem c2_counterexample :
    (Blocking.get_with_retry (fun _ => ⟨503, "", some "3600"⟩) 1).sleeps
      = [256]
    ∧ Retryable.compute_backoff (fun _ => none) 0 (some "3600") 256 = 3600000
    ∧ (256 : Nat) ≠ 3600000 := ⟨rfl, rfl, by decide⟩

/-- C2 (amended): only the exec_with_retry executors of src/retryable.rs read
the Retry-After header and set each sleep via compute_backoff applied to the
header and the previous delay; the get_with_retry executors of
src/blocking.rs and src/async.rs ignore the header, their i-th sleep being
BASE_BACKOFF_MILLIS times 2 to the i. -/
theorem c2_amended_backoff_policy (pd : String → Option Nat) (now : Nat)
    (r : Nat → AResp) (codes : List Nat) (m : Nat)
    (hall : ∀ i, codes.contains (r i).status = true) :
    (Retryable.async_exec_with_retry pd now (fun i => .ok (r i)) codes
        (some m)).sleeps
      = Retryable.backoff_scan pd now
          ((List.range m).map (fun i => (r i).retryAfter))
          Retryable.BASE_BACKOFF_MS
    ∧ (∀ (t : Nat → Resp) (mr : Nat),
        (Blocking.get_with_retry t mr).sleeps
          = (List.range (Blocking.get_with_retry t mr).sleeps.length).map
              (fun i => BASE_BACKOFF_MILLIS * 2 ^ i))
    ∧ (∀ (ta : Nat → AResp) (mr : Nat),
        (Async.get_with_retry ta mr).sleeps
          = (List.range (Async.get_with_retry ta mr).sleeps.length).map
              (fun i => BASE_BACKOFF_MILLIS * 2 ^ i)) := by
  refine ⟨?_, ?_, ?_⟩
  · have h := async_exec_loop_sleeps pd now r codes m hall m 0 0
      Retryable.BASE_BACKOFF_MS [] (by omega)
    simpa [Retryable.async_exec_with_retry] using h
  · intro t mr
    obtain ⟨k, hk⟩ :=
      blocking_loop_sleeps_geometric t mr mr 0 BASE_BACKOFF_MILLIS []
    simp only [Blocking.get_with_retry]
    rw [hk]
    simp
  · intro ta mr
    obtain ⟨k, hk⟩ :=
      async_loop_sleeps_geometric ta mr mr 0 BASE_BACKOFF_MILLIS []
    simp only [Async.get_with_retry]
    rw [hk]
    simp

/-- Witness for the amended C2: the async exec_with_retry against two 503
responses with Retry-After 3600 sleeps 3600000 ms each time, while the
blocking get_with_retry sleeps 256 then 512 ms. -/
theorem c2_amended_backoff_policy_witness :
    (Retryable.async_exec_with_retry (fun _ => none) 0
        (fun _ => .ok ⟨503, "", some "3600"⟩) [429, 503] (some 2)).sleeps
      = [3600000, 3600000]
    ∧ (Blocking.get_with_retry (fun _ => ⟨503, "", none⟩) 2).sleeps
      = [256, 512] := by
  have h := c2_amended_backoff_policy (fun _ => none) 0
    (fun _ => ⟨503, "", some "3600"⟩) [429, 503] 2 (fun _ => rfl)
  exact ⟨h.1.trans rfl, (h.2.1 (fun _ => ⟨503, "", none⟩) 2).trans rfl⟩

/-- C3 counterexample: the Retry-After value 9223372036854775808 (2 to the
63) parses as a u64, but the u64 multiplication seconds * 1000 inside
compute_backoff wraps modulo 2 to the 64, yielding a zero backoff instead of
2 to the 63 seconds. -/
theorem c3_counterexample :
    Retryable.parseU64 "9223372036854775808" = some 9223372036854775808
    ∧ Retryable.compute_backoff (fun _ => none) 0
        (some "9223372036854775808") 256 = 0
    ∧ (9223372036854775808 * 1000 : Nat) ≠ 0 := ⟨rfl, rfl, by decide⟩

/-- C3 (amended): compute_backoff returns max(0, date - now) (the truncated
Nat subtraction) when the header parses as an HTTP-date, otherwise
(n * 1000) mod 2 to the 64 milliseconds when it parses as a u64 n (which is n
seconds whenever the multiplication does not wrap), and twice the previous
delay when the header is absent or unparseable. -/
theorem c3_amended_compute_backoff (pd : String → Option Nat) (now d : Nat)
    (s : String) :
    Retryable.compute_backoff pd now none d = d * 2
    ∧ (∀ date, pd s = some date →
        Retryable.compute_backoff pd now (some s) d = date - now)
    ∧ (pd s = none → ∀ n, Retryable.parseU64 s = some n →
        Retryable.compute_backoff pd now (some s) d
          = (n * 1000) % 2 ^ 64)
    ∧ (pd s = none → Retryable.parseU64 s = none →
        Retryable.compute_backoff pd now (some s) d = d * 2) := by
  refine ⟨rfl, ?_, ?_, ?_⟩
  · intro date hdate
    rcases le_or_lt date now with hle | hlt
    · simp [Retryable.compute_backoff, hdate, hle]
    · simp [Retryable.compute_backoff, hdate, Nat.not_le.mpr hlt]
  · intro hnone n hn
    simp [Retryable.compute_backoff, Retryable.SECOND, hnone, hn]
  · intro hnone hn
    simp [Retryable.compute_backoff, hnone, hn]

/-- Witness for the amended C3 at a date parser sending the string D to time
75, with now 50 and previous delay 7: absent header doubles to 14, the date
gives 25, the integer 3600 gives 3600000 ms, and unparseable zz doubles to
14. -/
theorem c3_amended_compute_backoff_witness :
    Retryable.compute_backoff (fun x => if x = "D" then some 75 else none)
      50 none 7 = 14
    ∧ Retryable.compute_backoff (fun x => if x = "D" then some 75 else none)
      50 (some "D") 7 = 25
    ∧ Retryable.compute_backoff (fun x => if x = "D" then some 75 else none)
      50 (some "3600") 7 = 3600000
    ∧ Retryable.compute_backoff (fun x => if x = "D" then some 75 else none)
      50 (some "zz") 7 = 14 := by
  have h1 := c3_amended_compute_backoff
    (fun x => if x = "D" then some 75 else none) 50 7 "D"
  have h2 := c3_amended_compute_backoff
    (fun x => if x = "D" then some 75 else none) 50 7 "3600"
  have h3 := c3_amended_compute_backoff
    (fun x => if x = "D" then some 75 else none) 50 7 "zz"
  refine ⟨h1.1, ?_, ?_, ?_⟩
  · exact (h1.2.1 75 (by rfl)).trans rfl
  · exact (h2.2.2.1 (by rfl) 3600 (by rfl)).trans rfl
  · exact h3.2.2.2 (by rfl) (by rfl)

/-- C4 counterexample: the async client decodes a 201 response instead of
converting it to an HttpResponse error, refuting the claim that every
non-200 response is converted to an error in both clients. -/
theorem c4_counterexample :
    Async.get_response (fun _ => some (0 : Nat)) ⟨201, "x", none⟩
      = Except.ok 0
    ∧ (201 : Nat) ≠ 200 := ⟨rfl, by decide⟩

/-- C4 (amended): the blocking client and the api.rs Response treat exactly
status 200 as success, any other status (2xx included) becoming an
HttpResponse error, while the async client uses the reqwest is_success range
check: it errors exactly on statuses outside 200..=299 and decodes any 2xx
response. -/
theorem c4_amended_success_statuses (binDec : String → Option α)
    (jsonDec : String → Option β) :
    (∀ s : Int, is_status_ok s = true ↔ s = 200)
    ∧ (∀ r : ApiResponse, r.is_status_ok = true ↔ r.status_code = 200)
    ∧ (∀ resp : Resp, resp.status ≠ 200 →
        Blocking.get_response_json jsonDec resp
          = .error (http_response_error resp))
    ∧ (∀ resp : AResp, ¬(200 ≤ resp.status ∧ resp.status ≤ 299) →
        Async.get_response binDec resp
          = .error (.HttpResponse resp.status resp.body))
    ∧ (∀ resp : AResp, ∀ v, 200 ≤ resp.status → resp.status ≤ 299 →
        binDec resp.body = some v →
        Async.get_response binDec resp = .ok v) := by
  refine ⟨?_, ?_, ?_, ?_, ?_⟩
  · intro s
    simp [is_status_ok]
  · intro r
    simp [ApiResponse.is_status_ok]
  · intro resp h
    simp [Blocking.get_response_json, is_status_ok, h]
  · intro resp h
    have hs : Async.is_success resp.status = false := by
      simp [Async.is_success]
      omega
    simp [Async.get_response, hs]
  · intro resp v hlo hhi hdec
    have hs : Async.is_success resp.status = true := by
      simp [Async.is_success]
      omega
    simp [Async.get_response, hs, hdec]

/-- Witness for the amended C4: a 500 response errors in the blocking client,
a 301 response errors in the async client, and a 204 response is decoded by
the async client. -/
theorem c4_amended_success_statuses_witness :
    Blocking.get_response_json (fun _ => some (1 : Nat)) ⟨500, "m", none⟩
      = .error (.HttpResponse 500 "m")
    ∧ Async.get_response (fun _ => some (0 : Nat)) ⟨301, "m", none⟩
      = .error (.HttpResponse 301 "m")
    ∧ Async.get_response (fun _ => some (0 : Nat)) ⟨204, "", none⟩
      = .ok 0 := by
  have h := c4_amended_success_statuses (fun _ => some (0 : Nat))
    (fun _ => some (1 : Nat))
  exact ⟨h.2.2.1 ⟨500, "m", none⟩ (by decide),
    h.2.2.2.1 ⟨301, "m", none⟩ (by decide),
    h.2.2.2.2 ⟨204, "", none⟩ 0 (by decide) (by decide) rfl⟩

/-- C5: across all three optional-wrapper families of both clients
(get_opt_response, get_opt_response_json, get_opt_response_hex), a 404 maps
to Ok none, a decoded value to Ok some, and every other error passes through
unchanged (a 500 response yields the HttpResponse error, not none) — with
the one exception that is the code bug: BlockingClient::get_opt_response_hex
on a 200 response with malformed hex body panics (the unwrap on the hex
decode, modelled as none) instead of passing a decode error through, while
its async twin passes the typed HexToBytes error through. -/
theorem c5_optional_wrappers (binDec : String → Option α)
    (bytesDec : List Nat → Option α) (jsonDec : String → Option β) :
    (∀ resp : Resp, resp.status = 404 →
      Blocking.get_opt_response binDec resp = .ok none)
    ∧ (∀ resp : Resp, ∀ v, resp.status = 200 → binDec resp.body = some v →
      Blocking.get_opt_response binDec resp = .ok (some v))
    ∧ (∀ resp : Resp, resp.status = 500 →
      Blocking.get_opt_response binDec resp
        = .error (.HttpResponse 500 resp.body))
    ∧ (∀ resp : Resp, resp.status = 404 →
      Blocking.get_opt_response_json jsonDec resp = .ok none)
    ∧ (∀ resp : Resp, ∀ v, resp.status = 200 → jsonDec resp.body = some v →
      Blocking.get_opt_response_json jsonDec resp = .ok (some v))
    ∧ (∀ resp : Resp, resp.status = 500 →
      Blocking.get_opt_response_json jsonDec resp
        = .error (.HttpResponse 500 resp.body))
    ∧ (∀ resp : Resp, resp.status = 404 →
      Blocking.get_opt_response_hex bytesDec resp = some (.ok none))
    ∧ (∀ resp : Resp, ∀ bytes v, resp.status = 200 →
      from_hex resp.body.data = some bytes → bytesDec bytes = some v →
      Blocking.get_opt_response_hex bytesDec resp = some (.ok (some v)))
    ∧ (∀ resp : Resp, resp.status = 500 →
      Blocking.get_opt_response_hex bytesDec resp
        = some (.error (.HttpResponse 500 resp.body)))
    ∧ Blocking.get_opt_response_hex bytesDec ⟨200, "zz", none⟩ = none
    ∧ (∀ resp : AResp, ∀ v, Async.get_response binDec resp = .ok v →
      Async.get_opt_response binDec resp = .ok (some v))
    ∧ (∀ resp : AResp, ∀ msg,
      Async.get_response binDec resp = .error (.HttpResponse 404 msg) →
      Async.get_opt_response binDec resp = .ok none)
    ∧ (∀ resp : AResp, ∀ e, Async.get_response binDec resp = .error e →
      (∀ msg : String, e ≠ .HttpResponse 404 msg) →
      Async.get_opt_response binDec resp = .error e)
    ∧ (∀ resp : AResp, ∀ v, Async.get_response_json jsonDec resp = .ok v →
      Async.get_opt_response_json jsonDec resp = .ok (some v))
    ∧ (∀ resp : AResp, ∀ msg,
      Async.get_response_json jsonDec resp = .error (.HttpResponse 404 msg) →
      Async.get_opt_response_json jsonDec resp = .ok none)
    ∧ (∀ resp : AResp, ∀ e, Async.get_response_json jsonDec resp = .error e →
      (∀ msg : String, e ≠ .HttpResponse 404 msg) →
      Async.get_opt_response_json jsonDec resp = .error e)
    ∧ (∀ resp : AResp, ∀ v, Async.get_response_hex bytesDec resp = .ok v →
      Async.get_opt_response_hex bytesDec resp = .ok (some v))
    ∧ (∀ resp : AResp, ∀ msg,
      Async.get_response_hex bytesDec resp = .error (.HttpResponse 404 msg) →
      Async.get_opt_response_hex bytesDec resp = .ok none)
    ∧ (∀ resp : AResp, ∀ e, Async.get_response_hex bytesDec resp = .error e →
      (∀ msg : String, e ≠ .HttpResponse 404 msg) →
      Async.get_opt_response_hex bytesDec resp = .error e)
    ∧ (∀ resp : AResp, resp.status = 500 →
      Async.get_opt_response binDec resp
        = .error (.HttpResponse 500 resp.body))
    ∧ (∀ resp : AResp, resp.status = 500 →
      Async.get_opt_response_json jsonDec resp
        = .error (.HttpResponse 500 resp.body))
    ∧ (∀ resp : AResp, resp.status = 500 →
      Async.get_opt_response_hex bytesDec resp
        = .error (.HttpResponse 500 resp.body)) := by
  refine ⟨?_, ?_, ?_, ?_, ?_, ?_, ?_, ?_, ?_, rfl, ?_, ?_, ?_, ?_, ?_, ?_,
    ?_, ?_, ?_, ?_, ?_, ?_⟩
  · rintro ⟨s, b, ra⟩ h
    simp only at h
    subst h
    rfl
  · rintro ⟨s, b, ra⟩ v h hdec
    simp only at h
    subst h
    simp [Blocking.get_opt_response, is_status_not_found, is_status_ok, hdec]
  · rintro ⟨s, b, ra⟩ h
    simp only at h
    subst h
    rfl
  · rintro ⟨s, b, ra⟩ h
    simp only at h
    subst h
    rfl
  · rintro ⟨s, b, ra⟩ v h hdec
    simp only at h
    subst h
    simp [Blocking.get_opt_response_json, is_status_not_found, is_status_ok,
      hdec]
  · rintro ⟨s, b, ra⟩ h
    simp only at h
    subst h
    rfl
  · rintro ⟨s, b, ra⟩ h
    simp only at h
    subst h
    rfl
  · rintro ⟨s, b, ra⟩ bytes v h hhex hdec
    simp only at h hhex
    subst h
    simp [Blocking.get_opt_response_hex, is_status_not_found, is_status_ok,
      hhex, hdec]
  · rintro ⟨s, b, ra⟩ h
    simp only at h
    subst h
    rfl
  · intro resp v h
    simp [Async.get_opt_response, h]
  · intro resp msg h
    simp [Async.get_opt_response, h]
  · intro resp e h hne
    simp only [Async.get_opt_response, h]
    cases e <;>
      first
        | rfl
        | (rename_i st msg
           exact if_neg (fun hst => hne msg (by rw [hst])))
  · intro resp v h
    simp [Async.get_opt_response_json, h]
  · intro resp msg h
    simp [Async.get_opt_response_json, h]
  · intro resp e h hne
    simp only [Async.get_opt_response_json, h]
    cases e <;>
      first
        | rfl
        | (rename_i st msg
           exact if_neg (fun hst => hne msg (by rw [hst])))
  · intro resp v h
    simp [Async.get_opt_response_hex, h]
  · intro resp msg h
    simp [Async.get_opt_response_hex, h]
  · intro resp e h hne
    simp only [Async.get_opt_response_hex, h]
    cases e <;>
      first
        | rfl
        | (rename_i st msg
           exact if_neg (fun hst => hne msg (by rw [hst])))
  · rintro ⟨s, b, ra⟩ h
    simp only at h
    subst h
    rfl
  · rintro ⟨s, b, ra⟩ h
    simp only at h
    subst h
    rfl
  · rintro ⟨s, b, ra⟩ h
    simp only at h
    subst h
    rfl

/-- Witness for C5 at concrete 404, 200 and 500 responses of every wrapper
family, including the well-formed hex body 00ff, the malformed hex body zz at
which the blocking hex wrapper panics, and the async hex wrapper passing the
HexToBytes error through at that same body. -/
theorem c5_optional_wrappers_witness :
    Blocking.get_opt_response (fun _ => some (7 : Nat)) ⟨404, "", none⟩
      = .ok none
    ∧ Blocking.get_opt_response (fun _ => some (7 : Nat)) ⟨200, "", none⟩
      = .ok (some 7)
    ∧ Blocking.get_opt_response (fun _ => some (7 : Nat)) ⟨500, "m", none⟩
      = .error (.HttpResponse 500 "m")
    ∧ Blocking.get_opt_response_json (fun _ => some (9 : Nat)) ⟨404, "", none⟩
      = .ok none
    ∧ Blocking.get_opt_response_json (fun _ => some (9 : Nat)) ⟨200, "", none⟩
      = .ok (some 9)
    ∧ Blocking.get_opt_response_json (fun _ => some (9 : Nat))
      ⟨500, "m", none⟩ = .error (.HttpResponse 500 "m")
    ∧ Blocking.get_opt_response_hex (fun _ => some (8 : Nat)) ⟨404, "", none⟩
      = some (.ok none)
    ∧ Blocking.get_opt_response_hex (fun _ => some (8 : Nat))
      ⟨200, "00ff", none⟩ = some (.ok (some 8))
    ∧ Blocking.get_opt_response_hex (fun _ => some (8 : Nat))
      ⟨500, "m", none⟩ = some (.error (.HttpResponse 500 "m"))
    ∧ Blocking.get_opt_response_hex (fun _ => some (8 : Nat))
      ⟨200, "zz", none⟩ = none
    ∧ Async.get_opt_response (fun _ => some (7 : Nat)) ⟨404, "", none⟩
      = .ok none
    ∧ Async.get_opt_response_json (fun _ => some (9 : Nat)) ⟨404, "", none⟩
      = .ok none
    ∧ Async.get_opt_response_hex (fun _ => some (8 : Nat)) ⟨200, "zz", none⟩
      = .error .HexToBytes
    ∧ Async.get_opt_response_json (fun _ => some (9 : Nat)) ⟨500, "m", none⟩
      = .error (.HttpResponse 500 "m") := by
  obtain ⟨b1, b2, b3, j1, j2, j3, x1, x2, x3, xp, a1, a2, a3, aj1, aj2, aj3,
    ax1, ax2, ax3, q1, q2, q3⟩ := c5_optional_wrappers
    (fun _ => some (7 : Nat)) (fun _ => some (8 : Nat))
    (fun _ => some (9 : Nat))
  exact ⟨b1 ⟨404, "", none⟩ rfl, b2 ⟨200, "", none⟩ 7 rfl rfl,
    b3 ⟨500, "m", none⟩ rfl,
    j1 ⟨404, "", none⟩ rfl, j2 ⟨200, "", none⟩ 9 rfl rfl,
    j3 ⟨500, "m", none⟩ rfl,
    x1 ⟨404, "", none⟩ rfl,
    x2 ⟨200, "00ff", none⟩ [0, 255] 8 rfl rfl rfl,
    x3 ⟨500, "m", none⟩ rfl,
    xp,
    a2 ⟨404, "", none⟩ "" rfl,
    aj2 ⟨404, "", none⟩ "" rfl,
    ax3 ⟨200, "zz", none⟩ .HexToBytes rfl (fun _ hx => Error.noConfusion hx),
    q2 ⟨500, "m", none⟩ rfl⟩

/-- C7 counterexample: on a 200 response whose body is the empty JSON array,
the blocking get_blocks returns the InvalidResponse error while the async
get_blocks returns the empty list: the two clients do not produce the same
outcome on this endpoint and response. -/
theorem c7_counterexample :
    Blocking.get_blocks
      (fun str => if str = "[]" then some ([] : List Nat) else none)
      ⟨200, "[]", none⟩ = .error .InvalidResponse
    ∧ Async.get_blocks
      (fun str => if str = "[]" then some ([] : List Nat) else none)
      ⟨200, "[]", none⟩ = .ok []
    ∧ (Except.error Error.InvalidResponse
        ≠ (Except.ok [] : Except Error (List Nat))) :=
  ⟨rfl, rfl, fun h => Except.noConfusion h⟩

/-- C7 (amended): given the same final response and JSON decoder, the
blocking and async get_blocks agree on a 200 response decoding to a nonempty
list and on any response with a non-2xx status in the u16 range (both then
produce the same HttpResponse error); they diverge when a 200 response
decodes to the empty array, where blocking reports InvalidResponse and async
returns the empty list (and on non-200 2xx statuses, which only the async
client treats as success). -/
theorem c7_amended_get_blocks (jsonDec : String → Option (List α))
    (s : Nat) (body : String) (h1 h2 : Option String) :
    (∀ l, s = 200 → jsonDec body = some l → l ≠ [] →
      Blocking.get_blocks jsonDec ⟨(s : Int), body, h1⟩ = .ok l
      ∧ Async.get_blocks jsonDec ⟨s, body, h2⟩ = .ok l)
    ∧ (¬(200 ≤ s ∧ s ≤ 299) → s < 65536 →
      Blocking.get_blocks jsonDec ⟨(s : Int), body, h1⟩
        = .error (.HttpResponse s body)
      ∧ Async.get_blocks jsonDec ⟨s, body, h2⟩
        = .error (.HttpResponse s body))
    ∧ (s = 200 → jsonDec body = some [] →
      Blocking.get_blocks jsonDec ⟨(s : Int), body, h1⟩
        = .error .InvalidResponse
      ∧ Async.get_blocks jsonDec ⟨s, body, h2⟩ = .ok []) := by
  refine ⟨?_, ?_, ?_⟩
  · intro l hs hdec hne
    subst hs
    constructor
    · simp only [Blocking.get_blocks, Blocking.get_response_json]
      norm_num [is_status_ok, hdec]
      cases l with
      | nil => exact absurd rfl hne
      | cons a as => simp
    · simp [Async.get_blocks, Async.get_response_json, Async.is_success, hdec]
  · intro hs hlt
    have hne : s ≠ 200 := by omega
    constructor
    · have hok : is_status_ok (s : Int) = false := by
        simp only [is_status_ok, beq_eq_false_iff_ne, ne_eq]
        intro hcast
        exact hne (by exact_mod_cast hcast)
      have hcond : (0 : Int) ≤ (s : Int) ∧ (s : Int) < 65536 := by
        constructor
        · exact Int.natCast_nonneg s
        · exact_mod_cast hlt
      have herr : http_response_error ⟨(s : Int), body, h1⟩
          = .HttpResponse s body := by
        simp only [http_response_error, if_pos hcond]
        simp
      simp [Blocking.get_blocks, Blocking.get_response_json, hok, herr]
    · have hs2 : Async.is_success s = false := by
        simp [Async.is_success]
        omega
      simp [Async.get_blocks, Async.get_response_json, hs2]
  · intro hs hdec
    subst hs
    constructor
    · simp only [Blocking.get_blocks, Blocking.get_response_json]
      norm_num [is_status_ok, hdec]
    · simp [Async.get_blocks, Async.get_response_json, Async.is_success, hdec]

/-- Witness for the amended C7: the two get_blocks agree on a 200 response
decoding to a one-element list and on a 404 response. -/
theorem c7_amended_get_blocks_witness :
    Blocking.get_blocks (fun str => if str = "[1]" then some [1] else none)
      ⟨200, "[1]", none⟩ = .ok [1]
    ∧ Async.get_blocks (fun str => if str = "[1]" then some [1] else none)
      ⟨200, "[1]", none⟩ = .ok [1]
    ∧ Blocking.get_blocks (fun str => if str = "[1]" then some [1] else none)
      ⟨404, "nf", none⟩ = .error (.HttpResponse 404 "nf")
    ∧ Async.get_blocks (fun str => if str = "[1]" then some [1] else none)
      ⟨404, "nf", none⟩ = .error (.HttpResponse 404 "nf") := by
  have ha := c7_amended_get_blocks
    (fun str => if str = "[1]" then some [1] else none) 200 "[1]" none none
  have hb := c7_amended_get_blocks
    (fun str => if str = "[1]" then some [1] else none) 404 "nf" none none
  obtain ⟨g1, g2⟩ := ha.1 [1] rfl (by rfl) (by decide)
  obtain ⟨g3, g4⟩ := hb.2.1 (by omega) (by omega)
  exact ⟨g1, g2, g3, g4⟩

/-- C8: the claim that no decoding operation panics fails on the blocking hex
paths and on the api.rs scalar-text path: on a 200 response with the
malformed hex body zz, BlockingClient::get_response_hex and
get_opt_response_hex panic (the unwrap on the hex decode), modelled as none,
whereas the async path returns the typed HexToBytes error; and
BlocksApi::deserialize_str panics on an unparseable scalar body. -/
theorem c8_decode_panics :
    Blocking.get_response_hex (fun _ => some (0 : Nat)) ⟨200, "zz", none⟩
      = none
    ∧ Blocking.get_opt_response_hex (fun _ => some (0 : Nat))
      ⟨200, "zz", none⟩ = none
    ∧ Async.get_response_hex (fun _ => some (0 : Nat)) ⟨200, "zz", none⟩
      = .error .HexToBytes
    ∧ BlocksApi.deserialize_str (fun str => Retryable.parseU64 str)
      .BlockTipHeight ⟨200, "abc"⟩ = none := ⟨rfl, rfl, rfl, rfl⟩

/-- C9: decoding a fee-rate field of 0.0001 BTC/kvB (the rational 1 over
10000) yields 2500 sat/kwu, the conversion being exactly multiplication by
25,000,000 (modelled from the spec, as the DTO definitions are not under
src). -/
theorem c9_feerate_conversion :
    convert_btc_per_kvb_to_sat_per_kwu (1 / 10000) = 2500
    ∧ ∀ q : ℚ, convert_btc_per_kvb_to_sat_per_kwu q = q * 25000000 := by
  constructor
  · norm_num [convert_btc_per_kvb_to_sat_per_kwu]
  · intro q
    rfl

/-- Folding max_by_key_step from a some accumulator yields the accumulator or
an element of the list, with a key bounding the accumulator's key and every
key of the list. -/
theorem max_by_key_fold_spec (l : List (Nat × α)) :
    ∀ b : Nat × α, ∃ x, l.foldl max_by_key_step (some b) = some x
      ∧ (x = b ∨ x ∈ l) ∧ b.1 ≤ x.1 ∧ ∀ y ∈ l, y.1 ≤ x.1 := by
  induction l with
  | nil =>
    intro b
    exact ⟨b, rfl, Or.inl rfl, Nat.le_refl _, by simp⟩
  | cons kv rest ih =>
    intro b
    by_cases hb : b.1 ≤ kv.1
    · obtain ⟨x, hx, hmem, hge, hall⟩ := ih kv
      refine ⟨x, ?_, ?_, ?_, ?_⟩
      · rw [List.foldl_cons]
        have hstep : max_by_key_step (some b) kv = some kv := by
          simp [max_by_key_step, hb]
        rw [hstep]
        exact hx
      · rcases hmem with h | h
        · exact Or.inr (by simp [h])
        · exact Or.inr (List.mem_cons_of_mem _ h)
      · exact Nat.le_trans hb hge
      · intro y hy
        rcases List.mem_cons.mp hy with h | h
        · rw [h]
          exact hge
        · exact hall y h
    · obtain ⟨x, hx, hmem, hge, hall⟩ := ih b
      refine ⟨x, ?_, ?_, ?_, ?_⟩
      · rw [List.foldl_cons]
        have hstep : max_by_key_step (some b) kv = some b := by
          simp [max_by_key_step, hb]
        rw [hstep]
        exact hx
      · rcases hmem with h | h
        · exact Or.inl h
        · exact Or.inr (List.mem_cons_of_mem _ h)
      · exact hge
      · intro y hy
        rcases List.mem_cons.mp hy with h | h
        · rw [h]
          exact Nat.le_trans (Nat.le_of_lt (not_le.mp hb)) hge
        · exact hall y h

/-- max_by_key returns none exactly on the empty list. -/
theorem max_by_key_eq_none_iff (l : List (Nat × α)) :
    max_by_key l = none ↔ l = [] := by
  cases l with
  | nil => simp [max_by_key]
  | cons kv rest =>
    simp only [max_by_key, List.foldl_cons]
    obtain ⟨x, hx, _, _, _⟩ := max_by_key_fold_spec rest kv
    have hstep : max_by_key_step none kv = some kv := rfl
    rw [hstep, hx]
    simp

/-- In a list of pairs with pairwise-distinct first components, a key
determines its value. -/
theorem nodup_keys_val_eq (l : List (Nat × α))
    (hnd : (l.map Prod.fst).Nodup) :
    ∀ k v1 v2, (k, v1) ∈ l → (k, v2) ∈ l → v1 = v2 := by
  induction l with
  | nil =>
    intro k v1 v2 h
    simp at h
  | cons kv rest ih =>
    intro k v1 v2 hm1 hm2
    simp only [List.map_cons, List.nodup_cons] at hnd
    rcases List.mem_cons.mp hm1 with e1 | m1 <;>
      rcases List.mem_cons.mp hm2 with e2 | m2
    · exact congrArg Prod.snd (e1.trans e2.symm)
    · exfalso
      have hk : kv.1 = k := by rw [← e1]
      exact hnd.1 (hk ▸ List.mem_map_of_mem Prod.fst m2)
    · exfalso
      have hk : kv.1 = k := by rw [← e2]
      exact hnd.1 (hk ▸ List.mem_map_of_mem Prod.fst m1)
    · exact ih hnd.2 k v1 v2 m1 m2

/-- C10: convert_fee_rate returns none exactly when the estimates contain no
key at or below the target; otherwise it returns the value associated with
the largest key at or below the target, cast to f32 (the cast injected). -/
theorem c10_convert_fee_rate (cast : α → β) (target : Nat)
    (estimates : List (Nat × α)) (hnd : (estimates.map Prod.fst).Nodup) :
    (convert_fee_rate cast target estimates = none
      ↔ ∀ kv ∈ estimates, target < kv.1)
    ∧ (∀ k v, (k, v) ∈ estimates → k ≤ target →
        (∀ kv ∈ estimates, kv.1 ≤ target → kv.1 ≤ k) →
        convert_fee_rate cast target estimates = some (cast v)) := by
  constructor
  · unfold convert_fee_rate
    rw [Option.map_eq_none', max_by_key_eq_none_iff, List.filter_eq_nil_iff]
    constructor
    · intro h kv hm
      have := h kv hm
      simp at this
      omega
    · intro h kv hm
      have := h kv hm
      simp
      omega
  · intro k v hmem hk hmax
    have hmemf : (k, v) ∈ estimates.filter (fun kv => kv.1 ≤ target) := by
      simp [List.mem_filter, hmem, hk]
    cases hf : estimates.filter (fun kv => kv.1 ≤ target) with
    | nil =>
      rw [hf] at hmemf
      simp at hmemf
    | cons kv0 rest =>
      rw [hf] at hmemf
      obtain ⟨x, hx, hxmem, hge0, hall⟩ := max_by_key_fold_spec rest kv0
      have hxmem2 : x ∈ estimates.filter (fun kv => kv.1 ≤ target) := by
        rw [hf]
        rcases hxmem with h | h
        · simp [h]
        · exact List.mem_cons_of_mem _ h
      have hxe : x ∈ estimates := (List.mem_filter.mp hxmem2).1
      have hxle : x.1 ≤ target := by
        have := (List.mem_filter.mp hxmem2).2
        simpa using this
      have hle1 : x.1 ≤ k := hmax x hxe hxle
      have hle2 : k ≤ x.1 := by
        rcases List.mem_cons.mp hmemf with h | h
        · rw [← h] at hge0
          exact hge0
        · exact hall _ h
      have hkey : x.1 = k := Nat.le_antisymm hle1 hle2
      have hx2 : (k, x.2) ∈ estimates := by
        rw [← hkey]
        simpa using hxe
      have hval : x.2 = v := nodup_keys_val_eq estimates hnd k x.2 v hx2 hmem
      unfold convert_fee_rate
      rw [hf]
      show ((kv0 :: rest).foldl max_by_key_step none).map
        (fun kv => cast kv.2) = some (cast v)
      rw [List.foldl_cons]
      show (rest.foldl max_by_key_step (some kv0)).map
        (fun kv => cast kv.2) = some (cast v)
      rw [hx, Option.map_some', hval]

/-- Witness for C10: with the identity cast, target 3 and estimates with keys
2 and 5, the entry at key 2 is selected; with empty estimates the result is
none. -/
theorem c10_convert_fee_rate_witness :
    convert_fee_rate (fun x : Nat => x) 3 [(2, 10), (5, 20)] = some 10
    ∧ convert_fee_rate (fun x : Nat => x) 1 ([] : List (Nat × Nat))
      = none := by
  have h := c10_convert_fee_rate (fun x : Nat => x) 3 [(2, 10), (5, 20)]
    (by decide)
  have h2 := c10_convert_fee_rate (fun x : Nat => x) 1
    ([] : List (Nat × Nat)) (by decide)
  exact ⟨h.2 2 10 (by decide) (by decide) (by decide),
    h2.1.mpr (by decide)⟩

end Esplora
